import Mathlib

/-!
# Verification of `ex6_error_recovery.py` (Python_Super_Course)

Shallow embedding of the error-recovery exercise solution
(`course/A1_defensive_programming/solutions/ex6_error_recovery.py`):
`retry_with_backoff`, `ConfigManager` (load / get / validate_config) and
`DataProcessor` (process_data / _process_single_item), together with proofs of
the spec's testable properties about them.

Python scalars are embedded as `PyVal` (with rationals standing in for Python
floats: every arithmetic step the embedded code performs — doubling a delay,
taking a `min`, comparing with a constant — is exact on the values involved).
Python dicts are embedded as insertion-ordered association lists with first-hit
lookup, matching `dict` semantics for the operations the code performs
(membership, lookup, `copy`, key assignment).  Randomness (`random.random()`)
and the clock (`time.time()`) are passed in as explicit oracles indexed by the
item position.  Code raising an exception is embedded as `Except`.
-/

/-- Embedded Python value: `None`, `bool`, `int`, `float` (as `ℚ`), `str`,
`list`, `dict` (insertion-ordered association list). -/
inductive PyVal : Type where
  | none : PyVal
  | bool : Bool → PyVal
  | int : Int → PyVal
  | float : ℚ → PyVal
  | str : String → PyVal
  | list : List PyVal → PyVal
  | dict : List (String × PyVal) → PyVal

/-- Python `d[k] = v` on an insertion-ordered dict: overwrite in place when the
key is present, append otherwise. -/
def dictSet (d : List (String × PyVal)) (k : String) (v : PyVal) :
    List (String × PyVal) :=
  if (List.lookup k d).isSome then
    d.map (fun p => if p.1 == k then (k, v) else p)
  else
    d ++ [(k, v)]

theorem lookup_mapSet_self (k : String) (v : PyVal) :
    ∀ d : List (String × PyVal), (List.lookup k d).isSome →
      List.lookup k (d.map (fun p => if p.1 == k then (k, v) else p)) = some v
  | [], h => by simp at h
  | (a, b) :: tl, h => by
    by_cases hk : a = k
    · subst hk
      simp [List.lookup_cons]
    · have h1 : (a == k) = false := beq_false_of_ne hk
      have h2 : (k == a) = false := beq_false_of_ne (Ne.symm hk)
      rw [List.lookup_cons] at h
      simp only [h2] at h
      simp [List.map_cons, hk, List.lookup_cons, h2]
      simpa using lookup_mapSet_self k v tl h

theorem lookup_mapSet_ne (k k' : String) (v : PyVal) (hne : k' ≠ k) :
    ∀ d : List (String × PyVal),
      List.lookup k' (d.map (fun p => if p.1 == k then (k, v) else p)) =
        List.lookup k' d
  | [] => by simp
  | (a, b) :: tl => by
    by_cases hk : a = k
    · have h3 : (k' == k) = false := beq_false_of_ne hne
      simp [List.lookup_cons, hk, h3]
      simpa using lookup_mapSet_ne k k' v hne tl
    · have h1 : (a == k) = false := beq_false_of_ne hk
      simp only [List.map_cons, h1, Bool.false_eq_true, if_false]
      rw [List.lookup_cons, List.lookup_cons]
      cases hbe : k' == a
      · exact lookup_mapSet_ne k k' v hne tl
      · rfl

theorem lookup_append_single_self (k : String) (v : PyVal) :
    ∀ d : List (String × PyVal), List.lookup k d = none →
      List.lookup k (d ++ [(k, v)]) = some v
  | [], _ => by simp [List.lookup_cons]
  | (a, b) :: tl, h => by
    rw [List.lookup_cons] at h
    cases hbe : k == a
    · simp only [List.cons_append]
      rw [List.lookup_cons]
      simp only [hbe]
      apply lookup_append_single_self k v tl
      simpa [hbe] using h
    · simp [hbe] at h

theorem lookup_append_single_ne (k k' : String) (v : PyVal) (hne : k' ≠ k) :
    ∀ d : List (String × PyVal),
      List.lookup k' (d ++ [(k, v)]) = List.lookup k' d
  | [] => by simp [List.lookup_cons, beq_false_of_ne hne]
  | (a, b) :: tl => by
    simp only [List.cons_append]
    rw [List.lookup_cons, List.lookup_cons]
    cases hbe : k' == a
    · exact lookup_append_single_ne k k' v hne tl
    · rfl

theorem dictSet_lookup_self (d : List (String × PyVal)) (k : String) (v : PyVal) :
    List.lookup k (dictSet d k v) = some v := by
  unfold dictSet
  split
  case isTrue h => exact lookup_mapSet_self k v d h
  case isFalse h =>
    apply lookup_append_single_self
    cases hl : List.lookup k d
    · rfl
    · exact absurd (by rw [hl]; rfl) h

theorem dictSet_lookup_ne (d : List (String × PyVal)) (k k' : String) (v : PyVal)
    (hne : k' ≠ k) : List.lookup k' (dictSet d k v) = List.lookup k' d := by
  unfold dictSet
  split
  · exact lookup_mapSet_ne k k' v hne d
  · exact lookup_append_single_ne k k' v hne d

/-! ## `retry_with_backoff` (lines 45–80 of `ex6_error_recovery.py`)

The zero-argument operation `func` is embedded as `op : Nat → Except E A`
giving the outcome of its `k`-th invocation (0-indexed); `time.sleep` is
recorded in a trace rather than performed. -/

/-- Observable trace of one `retry_with_backoff` run: the outcome (`Except.error
none` is Python's `raise last_exception` with `last_exception = None`, reachable
only when `max_attempts = 0`), the number of invocations of `func`, and the
delays handed to `time.sleep`, in order. -/
structure RetryTrace (E A : Type) where
  result : Except (Option E) A
  calls : Nat
  sleeps : List ℚ

/-- Delay computed at 0-indexed attempt `i`: `min(base_delay * 2 ** i, max_delay)`. -/
def backoffDelay (base_delay max_delay : ℚ) (i : Nat) : ℚ :=
  min (base_delay * 2 ^ i) max_delay

/-- The `for attempt in range(max_attempts)` loop of `retry_with_backoff`.
`remaining` counts the attempts still available (so the loop guard
`attempt < max_attempts` is `remaining ≠ 0` and the no-sleep-after-last-attempt
guard `attempt < max_attempts - 1` is `remaining - 1 ≠ 0`); `attempt` is the
0-based index of the next attempt; `last` is `last_exception`. -/
def retryLoop {E A : Type} (op : Nat → Except E A) (base_delay max_delay : ℚ) :
    Nat → Nat → Option E → List ℚ → RetryTrace E A
  | 0, attempt, last, sleeps => ⟨Except.error last, attempt, sleeps⟩
  | remaining + 1, attempt, _, sleeps =>
    match op attempt with
    | Except.ok a => ⟨Except.ok a, attempt + 1, sleeps⟩
    | Except.error e =>
      if remaining = 0 then
        retryLoop op base_delay max_delay remaining (attempt + 1) (some e) sleeps
      else
        retryLoop op base_delay max_delay remaining (attempt + 1) (some e)
          (sleeps ++ [backoffDelay base_delay max_delay attempt])

/-- `retry_with_backoff(func, max_attempts, base_delay, max_delay)`. -/
def retry_with_backoff {E A : Type} (op : Nat → Except E A) (max_attempts : Nat)
    (base_delay max_delay : ℚ) : RetryTrace E A :=
  retryLoop op base_delay max_delay max_attempts 0 none []

theorem range_map_shift {α : Type} (f : Nat → α) (r : Nat) :
    (List.range (r + 1)).map f = f 0 :: (List.range r).map (fun j => f (j + 1)) := by
  simp [List.range_succ_eq_map, List.map_map, Function.comp_def]

theorem retryLoop_step_fail {E A : Type} (op : Nat → Except E A) (b m : ℚ)
    (r attempt : Nat) (last : Option E) (sleeps : List ℚ) (e : E)
    (he : op attempt = Except.error e) :
    retryLoop op b m (r + 1) attempt last sleeps =
      retryLoop op b m r (attempt + 1) (some e)
        (if r = 0 then sleeps else sleeps ++ [backoffDelay b m attempt]) := by
  conv_lhs => rw [retryLoop]
  rw [he]
  by_cases hr : r = 0 <;> simp [hr]

theorem retryLoop_step_ok {E A : Type} (op : Nat → Except E A) (b m : ℚ)
    (r attempt : Nat) (last : Option E) (sleeps : List ℚ) (a : A)
    (he : op attempt = Except.ok a) :
    retryLoop op b m (r + 1) attempt last sleeps =
      ⟨Except.ok a, attempt + 1, sleeps⟩ := by
  conv_lhs => rw [retryLoop]
  rw [he]

theorem retryLoop_allFail {E A : Type} (op : Nat → Except E A) (b m : ℚ) :
    ∀ (remaining attempt : Nat) (last : Option E) (sleeps : List ℚ) (e : E),
      (∀ j, j < remaining → ∃ e', op (attempt + j) = Except.error e') →
      op (attempt + remaining - 1) = Except.error e → 1 ≤ remaining →
      retryLoop op b m remaining attempt last sleeps =
        ⟨Except.error (some e), attempt + remaining,
         sleeps ++ (List.range (remaining - 1)).map
           (fun j => backoffDelay b m (attempt + j))⟩
  | 0, _, _, _, _, _, _, hr => absurd hr (by omega)
  | 1, attempt, last, sleeps, e, _, hlast, _ => by
    have h0 : op attempt = Except.error e := by simpa using hlast
    simp [retryLoop, h0]
  | r + 1 + 1, attempt, last, sleeps, e, hfail, hlast, _ => by
    obtain ⟨e0, he0⟩ := hfail 0 (by omega)
    simp only [Nat.add_zero] at he0
    have ih := retryLoop_allFail op b m (r + 1) (attempt + 1) (some e0)
      (sleeps ++ [backoffDelay b m attempt]) e
      (fun j hj => by
        have := hfail (j + 1) (by omega)
        simpa [Nat.add_assoc, Nat.add_comm 1 j] using this)
      (by
        have : attempt + 1 + (r + 1) - 1 = attempt + (r + 1 + 1) - 1 := by omega
        rw [this]; exact hlast)
      (by omega)
    rw [retryLoop_step_fail op b m (r + 1) attempt last sleeps e0 he0,
      if_neg (Nat.succ_ne_zero r), ih]
    have hshift : (List.range (r + 1)).map (fun j => backoffDelay b m (attempt + j)) =
        backoffDelay b m attempt ::
          (List.range r).map (fun j => backoffDelay b m (attempt + 1 + j)) := by
      rw [range_map_shift (fun j => backoffDelay b m (attempt + j)) r]
      simp only [Nat.add_zero]
      congr 1
      apply List.map_congr_left
      intro j _
      congr 1
      omega
    have hcount : attempt + 1 + (r + 1) = attempt + (r + 1 + 1) := by omega
    have hlen : r + 1 + 1 - 1 = r + 1 := by omega
    have hlen2 : r + 1 - 1 = r := by omega
    rw [hcount, hlen, hlen2, hshift]
    simp

theorem retryLoop_firstSuccess {E A : Type} (op : Nat → Except E A) (b m : ℚ) :
    ∀ (remaining attempt s : Nat) (last : Option E) (sleeps : List ℚ) (a : A),
      s < remaining →
      (∀ j, j < s → ∃ e', op (attempt + j) = Except.error e') →
      op (attempt + s) = Except.ok a →
      retryLoop op b m remaining attempt last sleeps =
        ⟨Except.ok a, attempt + s + 1,
         sleeps ++ (List.range s).map (fun j => backoffDelay b m (attempt + j))⟩
  | 0, _, s, _, _, _, hs, _, _ => absurd hs (by omega)
  | r + 1, attempt, 0, last, sleeps, a, _, _, hok => by
    have h0 : op attempt = Except.ok a := by simpa using hok
    simp [retryLoop, h0]
  | r + 1, attempt, s + 1, last, sleeps, a, hs, hfail, hok => by
    obtain ⟨e0, he0⟩ := hfail 0 (by omega)
    simp only [Nat.add_zero] at he0
    have hr : r ≠ 0 := by omega
    have ih := retryLoop_firstSuccess op b m r (attempt + 1) s (some e0)
      (sleeps ++ [backoffDelay b m attempt]) a
      (by omega)
      (fun j hj => by
        have := hfail (j + 1) (by omega)
        simpa [Nat.add_assoc, Nat.add_comm 1 j] using this)
      (by
        have : attempt + 1 + s = attempt + (s + 1) := by omega
        rw [this]; exact hok)
    rw [retryLoop_step_fail op b m r attempt last sleeps e0 he0, if_neg hr, ih]
    have hshift : (List.range (s + 1)).map (fun j => backoffDelay b m (attempt + j)) =
        backoffDelay b m attempt ::
          (List.range s).map (fun j => backoffDelay b m (attempt + 1 + j)) := by
      rw [range_map_shift (fun j => backoffDelay b m (attempt + j)) s]
      simp only [Nat.add_zero]
      congr 1
      apply List.map_congr_left
      intro j _
      congr 1
      omega
    have hcount : attempt + 1 + s + 1 = attempt + (s + 1) + 1 := by omega
    rw [hcount, hshift]
    simp

/-- C1: for `max_attempts = n ≥ 1`, an operation that fails on every call is
invoked exactly `n` times and the exception from the last (`n`-th) attempt is
the one raised; an operation whose first success is on call `k ≤ n` is invoked
exactly `k` times, its result is returned, and no delay occurs after the
successful attempt (only the `k - 1` inter-attempt delays were slept). -/
theorem retry_with_backoff_attempt_semantics {E A : Type}
    (op : Nat → Except E A) (b m : ℚ) (n k : Nat) (hn : 1 ≤ n) :
    ((∀ j, j < n → ∃ e', op j = Except.error e') →
      ∀ e, op (n - 1) = Except.error e →
        (retry_with_backoff op n b m).calls = n ∧
        (retry_with_backoff op n b m).result = Except.error (some e)) ∧
    (1 ≤ k → k ≤ n →
      (∀ j, j < k - 1 → ∃ e', op j = Except.error e') →
      ∀ a, op (k - 1) = Except.ok a →
        (retry_with_backoff op n b m).calls = k ∧
        (retry_with_backoff op n b m).result = Except.ok a ∧
        (retry_with_backoff op n b m).sleeps.length = k - 1) := by
  constructor
  · intro hfail e he
    have h := retryLoop_allFail op b m n 0 none [] e
      (by simpa using hfail) (by simpa using he) hn
    unfold retry_with_backoff
    rw [h]
    exact ⟨by simp, rfl⟩
  · intro hk hkn hfail a hok
    have h := retryLoop_firstSuccess op b m n 0 (k - 1) none [] a
      (by omega) (by simpa using hfail) (by simpa using hok)
    unfold retry_with_backoff
    rw [h]
    refine ⟨by simp; omega, by simp, by simp⟩

/-- Witness for C1: with `max_attempts = 3`, an always-failing operation is
called 3 times and the third failure is raised; an operation failing twice then
succeeding is called 3 times, returns its result, and slept exactly twice. -/
theorem retry_with_backoff_attempt_semantics_witness :
    ((retry_with_backoff (fun j => (Except.error j : Except Nat Nat)) 3 1 60).calls = 3 ∧
      (retry_with_backoff (fun j => (Except.error j : Except Nat Nat)) 3 1 60).result =
        Except.error (some 2)) ∧
    ((retry_with_backoff
        (fun j => if j < 2 then Except.error j else Except.ok (99 : Nat)) 3 1 60).calls = 3 ∧
      (retry_with_backoff
        (fun j => if j < 2 then Except.error j else Except.ok (99 : Nat)) 3 1 60).result =
          Except.ok 99 ∧
      (retry_with_backoff
        (fun j => if j < 2 then Except.error j else Except.ok (99 : Nat)) 3 1 60).sleeps.length = 2) := by
  constructor
  · exact (retry_with_backoff_attempt_semantics
      (fun j => (Except.error j : Except Nat Nat)) 1 60 3 3 (by omega)).1
      (fun j _ => ⟨j, rfl⟩) 2 rfl
  · have h := (retry_with_backoff_attempt_semantics
      (fun j => if j < 2 then Except.error j else Except.ok (99 : Nat)) 1 60 3 3 (by omega)).2
      (by omega) (by omega) (fun j hj => ⟨j, by simp [hj]⟩) 99 (by norm_num)
    simpa using h

/-- C2: against an always-failing operation with `max_attempts = n ≥ 1`,
exactly `n - 1` sleeps occur: the delay slept before attempt `i + 2` is
`min(base_delay * 2^i, max_delay)` for each `i ∈ [0, n-2]`, and none occurs
after the final attempt; concretely with `max_attempts = 3`,
`base_delay = 1.0`, `max_delay = 60.0` the two sleeps are `1.0` then `2.0`. -/
theorem retry_with_backoff_delay_schedule {E A : Type}
    (op : Nat → Except E A) (b m : ℚ) (n : Nat) (hn : 1 ≤ n)
    (hfail : ∀ j, j < n → ∃ e', op j = Except.error e') :
    (retry_with_backoff op n b m).sleeps =
      (List.range (n - 1)).map (fun i => min (b * 2 ^ i) m) ∧
    (retry_with_backoff op n b m).sleeps.length = n - 1 ∧
    (∀ i, i < n - 1 →
      (retry_with_backoff op n b m).sleeps.get? i = some (min (b * 2 ^ i) m)) ∧
    (retry_with_backoff (fun _ => (Except.error () : Except Unit Nat)) 3 1 60).sleeps =
      [1, 2] := by
  obtain ⟨e, he⟩ := hfail (n - 1) (by omega)
  have h := retryLoop_allFail op b m n 0 none [] e
    (by simpa using hfail) (by simpa using he) hn
  unfold retry_with_backoff
  rw [h]
  have hmain : ([] : List ℚ) ++ (List.range (n - 1)).map (fun j => backoffDelay b m (0 + j)) =
      (List.range (n - 1)).map (fun i => min (b * 2 ^ i) m) := by
    simp [backoffDelay]
  refine ⟨hmain, by simp, ?_, ?_⟩
  · intro i hi
    simp only [hmain]
    rw [List.get?_map, List.get?_range hi]
    rfl
  · show (retryLoop (fun _ => (Except.error () : Except Unit Nat)) 1 60 3 0 none []).sleeps = [1, 2]
    have h3 := retryLoop_allFail (fun _ => (Except.error () : Except Unit Nat)) 1 60 3 0 none [] ()
      (fun j _ => ⟨(), rfl⟩) rfl (by omega)
    rw [h3]
    show (List.range 2).map (fun j => backoffDelay 1 60 (0 + j)) = [1, 2]
    simp [List.range_succ, backoffDelay]
    norm_num

/-- Witness for C2: an always-failing operation with `max_attempts = 4`,
`base_delay = 10`, `max_delay = 15` sleeps `[10, 15, 15]` — the doubled delays
capped at `max_delay`. -/
theorem retry_with_backoff_delay_schedule_witness :
    (retry_with_backoff (fun j => (Except.error j : Except Nat Nat)) 4 10 15).sleeps =
      (List.range 3).map (fun i => min (10 * 2 ^ i) 15) := by
  have h := retry_with_backoff_delay_schedule
    (fun j => (Except.error j : Except Nat Nat)) 10 15 4 (by omega) (fun j _ => ⟨j, rfl⟩)
  simpa using h.1

/-! ## `ConfigManager` (lines 83–174 of `ex6_error_recovery.py`) -/

/-- The compiled-in `self.defaults` dict set in `ConfigManager.__init__`. -/
def configDefaults : List (String × PyVal) :=
  [("database_url", PyVal.str "sqlite:///default.db"),
   ("cache_size", PyVal.int 100),
   ("timeout", PyVal.int 30),
   ("debug", PyVal.bool false)]

/-- Outcome of `open(self.config_file)` followed by `json.load(f)`: the three
exception classes `_load_config` distinguishes, or a successfully parsed JSON
object. -/
inductive LoadSource : Type where
  | notFound : LoadSource
  | invalidJSON : LoadSource
  | otherFailure : LoadSource
  | parsed : List (String × PyVal) → LoadSource

/-- State of a `ConfigManager` instance (`self.config`, `self.defaults`). -/
structure ConfigManager where
  config : List (String × PyVal)
  defaults : List (String × PyVal)

/-- `ConfigManager._load_config`: the `try` body stores the parsed JSON in
`self.config` (then calls `validate_config` for diagnostic logging only); the
`except FileNotFoundError`, `except json.JSONDecodeError` and catch-all
`except Exception` clauses each fall back to `self.defaults.copy()`.  Because
the last clause catches every exception, the embedding is a total function:
loading never propagates a failure. -/
def loadConfig (src : LoadSource) : List (String × PyVal) :=
  match src with
  | LoadSource.parsed cfg => cfg
  | LoadSource.notFound => configDefaults
  | LoadSource.invalidJSON => configDefaults
  | LoadSource.otherFailure => configDefaults

/-- `ConfigManager.__init__(config_file)`: sets the defaults, then
`_load_config()`. -/
def ConfigManager.init (src : LoadSource) : ConfigManager :=
  ⟨loadConfig src, configDefaults⟩

/-- `ConfigManager.get(key, fallback=None)`: loaded value if the key is
present, else the fallback if it is not `None`, else the default value if the
key is a default key, else `None`. -/
def ConfigManager.get (cm : ConfigManager) (key : String)
    (fallback : PyVal := PyVal.none) : PyVal :=
  match List.lookup key cm.config with
  | some v => v
  | Option.none =>
    match fallback with
    | PyVal.none =>
      match List.lookup key cm.defaults with
      | some v => v
      | Option.none => PyVal.none
    | fb => fb

/-- Python `isinstance(v, int)` — `True`/`False` are instances of `int`. -/
def isInstanceInt : PyVal → Bool
  | PyVal.int _ => true
  | PyVal.bool _ => true
  | _ => false

/-- Python `isinstance(v, (int, float))`. -/
def isInstanceNumber : PyVal → Bool
  | PyVal.int _ => true
  | PyVal.bool _ => true
  | PyVal.float _ => true
  | _ => false

/-- Python `isinstance(v, bool)`. -/
def isInstanceBool : PyVal → Bool
  | PyVal.bool _ => true
  | _ => false

/-- Numeric value of an int/bool/float `PyVal` (only consulted after the code
has checked the corresponding `isinstance`). -/
def pyNum : PyVal → ℚ
  | PyVal.int n => (n : ℚ)
  | PyVal.bool b => if b then 1 else 0
  | PyVal.float q => q
  | _ => 0

/-- `not isinstance(cache_size, int) or cache_size < 1` (short-circuit `or`). -/
def cacheSizeIssue (v : PyVal) : Bool :=
  !isInstanceInt v || decide (pyNum v < 1)

/-- `not isinstance(timeout, (int, float)) or timeout <= 0`. -/
def timeoutIssue (v : PyVal) : Bool :=
  !isInstanceNumber v || decide (pyNum v ≤ 0)

/-- One known-key check of `validate_config`: `self.config.get(k)` yields
`None` for an absent key (so a stored `None` value is skipped exactly like an
absent key, `v is not None` being the guard); otherwise the issue message is
emitted when the `bad` condition holds. -/
def checkKey (v : PyVal) (bad : PyVal → Bool) (msg : String) : List String :=
  match v with
  | PyVal.none => []
  | v => if bad v then [msg] else []

/-- `ConfigManager.validate_config()`: the three known-key checks, their
issues appended in the fixed order `cache_size`, `timeout`, `debug`. -/
def ConfigManager.validate_config (cm : ConfigManager) : List String :=
  checkKey ((List.lookup "cache_size" cm.config).getD PyVal.none)
    cacheSizeIssue "cache_size must be a positive integer" ++
  checkKey ((List.lookup "timeout" cm.config).getD PyVal.none)
    timeoutIssue "timeout must be a positive number" ++
  checkKey ((List.lookup "debug" cm.config).getD PyVal.none)
    (fun v => !isInstanceBool v) "debug must be a boolean"

/-- `sub in s` for strings: `s` splits around an occurrence of `sub`. -/
def strMentions (sub s : String) : Prop :=
  ∃ pre post : String, s = pre ++ sub ++ post

/-- C3: constructing a `ConfigManager` never propagates a load failure — the
embedded `_load_config` is a total function and on every failing source
(nonexistent file, invalid JSON, any other exception) the active configuration
becomes an exact copy of the built-in defaults, so a manager built from a
nonexistent source equals one built from an invalid source, and `get` returns
the compiled-in default for every default key. -/
theorem configManager_load_failure_fallback (src : LoadSource)
    (hfail : src = LoadSource.notFound ∨ src = LoadSource.invalidJSON ∨
      src = LoadSource.otherFailure) :
    (ConfigManager.init src).config = configDefaults ∧
    ConfigManager.init src = ConfigManager.init LoadSource.notFound ∧
    ConfigManager.init LoadSource.invalidJSON = ConfigManager.init LoadSource.notFound ∧
    (∀ key v, List.lookup key configDefaults = some v →
      (ConfigManager.init src).get key = v) := by
  rcases hfail with rfl | rfl | rfl <;>
    refine ⟨rfl, rfl, rfl, fun key v hv => ?_⟩ <;>
    simp [ConfigManager.get, ConfigManager.init, loadConfig, hv]

/-- Witness for C3: a manager built from an invalid-JSON source uses the
defaults; `get` yields the compiled-in `database_url`, `cache_size`,
`timeout` and `debug` defaults. -/
theorem configManager_load_failure_fallback_witness :
    (ConfigManager.init LoadSource.invalidJSON).config = configDefaults ∧
    (ConfigManager.init LoadSource.invalidJSON).get "database_url" =
      PyVal.str "sqlite:///default.db" ∧
    (ConfigManager.init LoadSource.invalidJSON).get "cache_size" = PyVal.int 100 ∧
    (ConfigManager.init LoadSource.invalidJSON).get "timeout" = PyVal.int 30 ∧
    (ConfigManager.init LoadSource.invalidJSON).get "debug" = PyVal.bool false := by
  have h := configManager_load_failure_fallback LoadSource.invalidJSON
    (Or.inr (Or.inl rfl))
  exact ⟨h.1, h.2.2.2 "database_url" _ rfl, h.2.2.2 "cache_size" _ rfl,
    h.2.2.2 "timeout" _ rfl, h.2.2.2 "debug" _ rfl⟩

/-- C7: `get` resolves through three tiers in order: the loaded value when the
key is present in `self.config`; otherwise the caller-supplied fallback when
one was supplied (a non-`None` fallback argument — Python cannot distinguish
an explicit `None` from the omitted default); otherwise the default value when
the key is a default key; otherwise the absent-value sentinel `None`. -/
theorem configManager_get_three_tier (cm : ConfigManager) (key : String)
    (fb : PyVal) :
    (∀ v, List.lookup key cm.config = some v → cm.get key fb = v) ∧
    (List.lookup key cm.config = Option.none → fb ≠ PyVal.none →
      cm.get key fb = fb) ∧
    (List.lookup key cm.config = Option.none → fb = PyVal.none →
      ∀ v, List.lookup key cm.defaults = some v → cm.get key fb = v) ∧
    (List.lookup key cm.config = Option.none → fb = PyVal.none →
      List.lookup key cm.defaults = Option.none → cm.get key fb = PyVal.none) := by
  refine ⟨fun v hv => ?_, fun h1 h2 => ?_, fun h1 h2 v hv => ?_, fun h1 h2 h3 => ?_⟩
  · simp [ConfigManager.get, hv]
  · cases fb
    case none => exact absurd rfl h2
    all_goals simp [ConfigManager.get, h1]
  · subst h2
    simp [ConfigManager.get, h1, hv]
  · subst h2
    simp [ConfigManager.get, h1, h3]

/-- Witness for C7: on a manager whose loaded config is `{a: 1}`, each of the
four tiers fires: loaded value, caller fallback, default value, `None`. -/
theorem configManager_get_three_tier_witness :
    (ConfigManager.init (LoadSource.parsed [("a", PyVal.int 1)])).get "a"
      (PyVal.int 5) = PyVal.int 1 ∧
    (ConfigManager.init (LoadSource.parsed [("a", PyVal.int 1)])).get "custom"
      (PyVal.str "fb") = PyVal.str "fb" ∧
    (ConfigManager.init (LoadSource.parsed [("a", PyVal.int 1)])).get "timeout"
      PyVal.none = PyVal.int 30 ∧
    (ConfigManager.init (LoadSource.parsed [("a", PyVal.int 1)])).get "unknown"
      PyVal.none = PyVal.none := by
  refine
    ⟨(configManager_get_three_tier
        (ConfigManager.init (LoadSource.parsed [("a", PyVal.int 1)])) "a"
        (PyVal.int 5)).1 _ rfl,
      (configManager_get_three_tier
        (ConfigManager.init (LoadSource.parsed [("a", PyVal.int 1)])) "custom"
        (PyVal.str "fb")).2.1 rfl (by simp),
      (configManager_get_three_tier
        (ConfigManager.init (LoadSource.parsed [("a", PyVal.int 1)])) "timeout"
        PyVal.none).2.2.1 rfl rfl _ rfl,
      (configManager_get_three_tier
        (ConfigManager.init (LoadSource.parsed [("a", PyVal.int 1)])) "unknown"
        PyVal.none).2.2.2 rfl rfl rfl⟩

theorem checkKey_nil (v : PyVal) (bad : PyVal → Bool) (msg : String)
    (h : v = PyVal.none ∨ bad v = false) : checkKey v bad msg = [] := by
  rcases h with rfl | h
  · rfl
  · cases v <;> simp [checkKey, h]

/-- The malformed demo configuration `{cache_size: -10, timeout: "30",
debug: "yes"}` from the spec scenario. -/
def invalidDemoConfig : List (String × PyVal) :=
  [("cache_size", PyVal.int (-10)), ("timeout", PyVal.str "30"),
   ("debug", PyVal.str "yes")]

/-- C8: `validate_config` checks only the known keys `cache_size` (positive
integer), `timeout` (positive number) and `debug` (boolean): its result is
determined by the values stored under those three keys alone (so unknown keys
are ignored); it returns `[]` when every checked key passes or is absent; and
on `{cache_size: -10, timeout: "30", debug: "yes"}` it returns exactly three
issue strings, one mentioning each of the three keys. -/
theorem validate_config_known_keys (cm cm' : ConfigManager) :
    ((List.lookup "cache_size" cm.config).getD PyVal.none =
        (List.lookup "cache_size" cm'.config).getD PyVal.none →
      (List.lookup "timeout" cm.config).getD PyVal.none =
        (List.lookup "timeout" cm'.config).getD PyVal.none →
      (List.lookup "debug" cm.config).getD PyVal.none =
        (List.lookup "debug" cm'.config).getD PyVal.none →
      cm.validate_config = cm'.validate_config) ∧
    (((List.lookup "cache_size" cm.config).getD PyVal.none = PyVal.none ∨
        cacheSizeIssue ((List.lookup "cache_size" cm.config).getD PyVal.none) = false) →
      ((List.lookup "timeout" cm.config).getD PyVal.none = PyVal.none ∨
        timeoutIssue ((List.lookup "timeout" cm.config).getD PyVal.none) = false) →
      ((List.lookup "debug" cm.config).getD PyVal.none = PyVal.none ∨
        isInstanceBool ((List.lookup "debug" cm.config).getD PyVal.none) = true) →
      cm.validate_config = []) ∧
    (ConfigManager.init (LoadSource.parsed invalidDemoConfig)).validate_config =
      ["cache_size must be a positive integer",
       "timeout must be a positive number",
       "debug must be a boolean"] ∧
    strMentions "cache_size" "cache_size must be a positive integer" ∧
    strMentions "timeout" "timeout must be a positive number" ∧
    strMentions "debug" "debug must be a boolean" := by
  refine ⟨fun h1 h2 h3 => ?_, fun h1 h2 h3 => ?_, rfl,
    ⟨"", " must be a positive integer", rfl⟩,
    ⟨"", " must be a positive number", rfl⟩,
    ⟨"", " must be a boolean", rfl⟩⟩
  · unfold ConfigManager.validate_config
    rw [h1, h2, h3]
  · have h3' : (List.lookup "debug" cm.config).getD PyVal.none = PyVal.none ∨
        (!isInstanceBool ((List.lookup "debug" cm.config).getD PyVal.none)) = false := by
      rcases h3 with h | h
      · exact Or.inl h
      · exact Or.inr (by simp [h])
    unfold ConfigManager.validate_config
    rw [checkKey_nil _ _ _ h1, checkKey_nil _ _ _ h2, checkKey_nil _ _ _ h3']
    rfl

/-- Witness for C8: a config carrying an unknown key validates the same as one
without it, and a fully valid config yields no issues. -/
theorem validate_config_known_keys_witness :
    (ConfigManager.init (LoadSource.parsed
      [("unknown_key", PyVal.str "w"), ("cache_size", PyVal.int 2)])).validate_config =
      (ConfigManager.init (LoadSource.parsed
        [("cache_size", PyVal.int 2)])).validate_config ∧
    (ConfigManager.init (LoadSource.parsed
      [("cache_size", PyVal.int 200), ("timeout", PyVal.float 30),
       ("debug", PyVal.bool true)])).validate_config = [] := by
  constructor
  · exact (validate_config_known_keys
      (ConfigManager.init (LoadSource.parsed
        [("unknown_key", PyVal.str "w"), ("cache_size", PyVal.int 2)]))
      (ConfigManager.init (LoadSource.parsed
        [("cache_size", PyVal.int 2)]))).1 rfl rfl rfl
  · exact (validate_config_known_keys
      (ConfigManager.init (LoadSource.parsed
        [("cache_size", PyVal.int 200), ("timeout", PyVal.float 30),
         ("debug", PyVal.bool true)]))
      (ConfigManager.init (LoadSource.parsed
        [("cache_size", PyVal.int 200), ("timeout", PyVal.float 30),
         ("debug", PyVal.bool true)]))).2.1
      (Or.inr (by decide)) (Or.inr (by decide)) (Or.inr rfl)

/-! ## `DataProcessor` (lines 212–307 of `ex6_error_recovery.py`)

Only the state that `process_data` reads or writes is carried:
`self.error_count` and `self.max_errors` (`self.config` and `self.cache` are
never touched by `process_data` or `_process_single_item`). -/

/-- Mutable counters of a `DataProcessor` instance. -/
structure DataProcessor where
  error_count : Nat
  max_errors : Nat

/-- `DataProcessor.__init__`: `error_count = 0`, `max_errors = 5`. -/
def DataProcessor.init : DataProcessor := ⟨0, 5⟩

/-- The `ValueError`s `_process_single_item` can raise. -/
inductive ItemFailure : Type where
  | notADict : ItemFailure
  | missingId : ItemFailure
  | randomFailure : ItemFailure

/-- Lines 281–286: `item.copy()`, then `processed_at` and `status` set on the
copy — the input dict itself is never written to. -/
def transformItem (t : ℚ) (d : List (String × PyVal)) : List (String × PyVal) :=
  dictSet (dictSet d "processed_at" (PyVal.float t)) "status" (PyVal.str "processed")

/-- `DataProcessor._process_single_item(item)`: raise for a non-dict, then for
a missing `id` key, then on the simulated random failure (`fault` is the
oracle for `random.random() < 0.2`, `t` for `time.time()`); otherwise return
the extended copy. -/
def processSingleItem (fault : Bool) (t : ℚ) (item : PyVal) :
    Except ItemFailure PyVal :=
  match item with
  | PyVal.dict d =>
    if (List.lookup "id" d).isSome then
      if fault then Except.error ItemFailure.randomFailure
      else Except.ok (PyVal.dict (transformItem t d))
    else Except.error ItemFailure.missingId
  | _ => Except.error ItemFailure.notADict

/-- An item on which `_process_single_item` fails regardless of the random
draw: not a dict, or a dict without the `id` key. -/
def malformed : PyVal → Bool
  | PyVal.dict d => (List.lookup "id" d).isNone
  | _ => true

/-- Observables of one `process_data` loop execution: final counters, the
`processed_items` list, the number of items for which `_process_single_item`
was invoked, and the number of per-item failures caught. -/
structure LoopOut where
  state : DataProcessor
  items : List PyVal
  attempts : Nat
  failures : Nat

/-- The `for i, item in enumerate(data)` loop of `process_data`: on success
append the processed item; on failure increment `self.error_count` and `break`
once `error_count >= max_errors`. -/
def processLoop (faults : Nat → Bool) (tstamp : Nat → ℚ) :
    DataProcessor → Nat → List PyVal → List PyVal → LoopOut
  | st, _, acc, [] => ⟨st, acc, 0, 0⟩
  | st, i, acc, item :: rest =>
    match processSingleItem (faults i) (tstamp i) item with
    | Except.ok out =>
      let r := processLoop faults tstamp st (i + 1) (acc ++ [out]) rest
      ⟨r.state, r.items, r.attempts + 1, r.failures⟩
    | Except.error _ =>
      let st' : DataProcessor := ⟨st.error_count + 1, st.max_errors⟩
      if st'.error_count ≥ st'.max_errors then ⟨st', acc, 1, 1⟩
      else
        let r := processLoop faults tstamp st' (i + 1) acc rest
        ⟨r.state, r.items, r.attempts + 1, r.failures + 1⟩

/-- The failure `process_data` itself can raise after the loop. -/
inductive PyRunFailure : Type where
  | zeroDivision : PyRunFailure

/-- `DataProcessor.process_data(data)`: run the loop, then compute the
success-rate log line `len(processed_items) / len(data) * 100`, which raises
`ZeroDivisionError` when `data` is empty; otherwise return the processed
items. -/
def process_data (faults : Nat → Bool) (tstamp : Nat → ℚ) (st : DataProcessor)
    (data : List PyVal) : LoopOut × Except PyRunFailure (List PyVal) :=
  let r := processLoop faults tstamp st 0 [] data
  if data.length = 0 then (r, Except.error PyRunFailure.zeroDivision)
  else (r, Except.ok r.items)

theorem processLoop_step_ok (faults : Nat → Bool) (tstamp : Nat → ℚ)
    (st : DataProcessor) (i : Nat) (acc : List PyVal) (item : PyVal)
    (rest : List PyVal) (out : PyVal)
    (h : processSingleItem (faults i) (tstamp i) item = Except.ok out) :
    processLoop faults tstamp st i acc (item :: rest) =
      ⟨(processLoop faults tstamp st (i + 1) (acc ++ [out]) rest).state,
       (processLoop faults tstamp st (i + 1) (acc ++ [out]) rest).items,
       (processLoop faults tstamp st (i + 1) (acc ++ [out]) rest).attempts + 1,
       (processLoop faults tstamp st (i + 1) (acc ++ [out]) rest).failures⟩ := by
  conv_lhs => rw [processLoop]
  rw [h]

theorem processLoop_step_break (faults : Nat → Bool) (tstamp : Nat → ℚ)
    (st : DataProcessor) (i : Nat) (acc : List PyVal) (item : PyVal)
    (rest : List PyVal) (e : ItemFailure)
    (h : processSingleItem (faults i) (tstamp i) item = Except.error e)
    (hb : st.error_count + 1 ≥ st.max_errors) :
    processLoop faults tstamp st i acc (item :: rest) =
      ⟨⟨st.error_count + 1, st.max_errors⟩, acc, 1, 1⟩ := by
  conv_lhs => rw [processLoop]
  rw [h]
  simp only [ge_iff_le]
  rw [if_pos hb]

theorem processLoop_step_continue (faults : Nat → Bool) (tstamp : Nat → ℚ)
    (st : DataProcessor) (i : Nat) (acc : List PyVal) (item : PyVal)
    (rest : List PyVal) (e : ItemFailure)
    (h : processSingleItem (faults i) (tstamp i) item = Except.error e)
    (hb : st.error_count + 1 < st.max_errors) :
    processLoop faults tstamp st i acc (item :: rest) =
      ⟨(processLoop faults tstamp ⟨st.error_count + 1, st.max_errors⟩ (i + 1) acc rest).state,
       (processLoop faults tstamp ⟨st.error_count + 1, st.max_errors⟩ (i + 1) acc rest).items,
       (processLoop faults tstamp ⟨st.error_count + 1, st.max_errors⟩ (i + 1) acc rest).attempts + 1,
       (processLoop faults tstamp ⟨st.error_count + 1, st.max_errors⟩ (i + 1) acc rest).failures + 1⟩ := by
  conv_lhs => rw [processLoop]
  rw [h]
  simp only [ge_iff_le]
  rw [if_neg (by omega)]

theorem processLoop_error_accounting (faults : Nat → Bool) (tstamp : Nat → ℚ) :
    ∀ (data : List PyVal) (st : DataProcessor) (i : Nat) (acc : List PyVal),
      (processLoop faults tstamp st i acc data).state.error_count =
        st.error_count + (processLoop faults tstamp st i acc data).failures ∧
      (processLoop faults tstamp st i acc data).state.max_errors = st.max_errors
  | [], st, i, acc => by simp [processLoop]
  | item :: rest, st, i, acc => by
    cases hpi : processSingleItem (faults i) (tstamp i) item with
    | ok out =>
      have ih := processLoop_error_accounting faults tstamp rest st (i + 1) (acc ++ [out])
      rw [processLoop_step_ok faults tstamp st i acc item rest out hpi]
      exact ih
    | error e =>
      by_cases hb : st.error_count + 1 ≥ st.max_errors
      · rw [processLoop_step_break faults tstamp st i acc item rest e hpi hb]
        simp
      · have ih := processLoop_error_accounting faults tstamp rest
          ⟨st.error_count + 1, st.max_errors⟩ (i + 1) acc
        rw [processLoop_step_continue faults tstamp st i acc item rest e hpi (by omega)]
        refine ⟨?_, ih.2⟩
        have := ih.1
        simp at this ⊢
        omega

theorem process_data_fst (faults : Nat → Bool) (tstamp : Nat → ℚ)
    (st : DataProcessor) (data : List PyVal) :
    (process_data faults tstamp st data).1 = processLoop faults tstamp st 0 [] data := by
  unfold process_data
  by_cases h : data.length = 0 <;> simp [h]

/-- A sequence of `process_data` calls on one processor instance, each call
with its own fault oracle, timestamp oracle and batch.  Returns the final
state and the total number of per-item failures over all calls. -/
def runBatches : DataProcessor → List ((Nat → Bool) × (Nat → ℚ) × List PyVal) →
    DataProcessor × Nat
  | st, [] => (st, 0)
  | st, (f, t, b) :: rest =>
    let r := process_data f t st b
    let rr := runBatches r.1.state rest
    (rr.1, r.1.failures + rr.2)

theorem runBatches_accounting :
    ∀ (calls : List ((Nat → Bool) × (Nat → ℚ) × List PyVal)) (st : DataProcessor),
      (runBatches st calls).1.error_count =
        st.error_count + (runBatches st calls).2 ∧
      (runBatches st calls).1.max_errors = st.max_errors
  | [], st => by simp [runBatches]
  | (f, t, b) :: rest, st => by
    have h1 := processLoop_error_accounting f t b st 0 []
    have hfst := process_data_fst f t st b
    have ih := runBatches_accounting rest (process_data f t st b).1.state
    simp only [runBatches]
    rw [hfst] at ih ⊢
    constructor
    · rw [ih.1, h1.1]
      omega
    · rw [ih.2, h1.2]

/-- C9: on a single `DataProcessor` instance the error counter is never reset
by `process_data`: one call adds exactly its number of per-item failures to
`self.error_count` (so the counter never decreases), every call shares the one
`max_errors` budget on the instance, across any sequence of calls the final
counter is the initial counter plus the cumulative number of per-item failures
of all calls, and a freshly constructed instance starts at zero (there is no
reset method — `error_count` is written only by the `+= 1` in the loop). -/
theorem processor_error_count_cumulative (st : DataProcessor)
    (calls : List ((Nat → Bool) × (Nat → ℚ) × List PyVal)) :
    (∀ f t b, (process_data f t st b).1.state.error_count =
        st.error_count + (process_data f t st b).1.failures ∧
      (process_data f t st b).1.state.max_errors = st.max_errors ∧
      st.error_count ≤ (process_data f t st b).1.state.error_count) ∧
    (runBatches st calls).1.error_count =
      st.error_count + (runBatches st calls).2 ∧
    st.error_count ≤ (runBatches st calls).1.error_count ∧
    (runBatches st calls).1.max_errors = st.max_errors ∧
    DataProcessor.init.error_count = 0 := by
  have hr := runBatches_accounting calls st
  refine ⟨fun f t b => ?_, hr.1, by omega, hr.2, rfl⟩
  have h1 := processLoop_error_accounting f t b st 0 []
  rw [process_data_fst f t st b]
  exact ⟨h1.1, h1.2, by omega⟩

/-- Nonempty batches never raise: the only failure point after the loop is
the division by `len(data)` in the success-rate log line. -/
theorem process_data_nonempty_returns (faults : Nat → Bool) (tstamp : Nat → ℚ)
    (st : DataProcessor) (data : List PyVal) (h : data.length ≠ 0) :
    (process_data faults tstamp st data).2 =
      Except.ok (processLoop faults tstamp st 0 [] data).items := by
  unfold process_data
  simp [h]

/-- C4 (code defect): the success-rate log line
`len(processed_items) / len(data) * 100` divides by `len(data)`, so
`process_data([])` raises `ZeroDivisionError` instead of returning `[]`;
nonempty batches — even ones whose items all fail — return a list normally. -/
theorem process_data_empty_batch_zero_division :
    (process_data (fun _ => false) (fun _ => 0) DataProcessor.init []).2 =
      Except.error PyRunFailure.zeroDivision ∧
    (process_data (fun _ => false) (fun _ => 0) DataProcessor.init
      [PyVal.str "x"]).2 = Except.ok [] ∧
    (process_data (fun _ => false) (fun _ => 0) DataProcessor.init
      [PyVal.dict [("id", PyVal.int 1)]]).2 =
      Except.ok [PyVal.dict [("id", PyVal.int 1), ("processed_at", PyVal.float 0),
        ("status", PyVal.str "processed")]] := by
  exact ⟨rfl, rfl, rfl⟩

/-- Items of `data` that survive `process_data` with fault injection disabled,
in input order, transformed as `_process_single_item` transforms them
(`i` is the enumeration index of the first item). -/
def expectedOutputs (tstamp : Nat → ℚ) : Nat → List PyVal → List PyVal
  | _, [] => []
  | i, item :: rest =>
    match item with
    | PyVal.dict d =>
      if (List.lookup "id" d).isSome then
        PyVal.dict (transformItem (tstamp i) d) :: expectedOutputs tstamp (i + 1) rest
      else expectedOutputs tstamp (i + 1) rest
    | _ => expectedOutputs tstamp (i + 1) rest

theorem expectedOutputs_length (tstamp : Nat → ℚ) :
    ∀ (data : List PyVal) (i : Nat),
      (expectedOutputs tstamp i data).length =
        data.length - data.countP (fun it => malformed it)
  | [], _ => by simp [expectedOutputs]
  | item :: rest, i => by
    have ih := expectedOutputs_length tstamp rest (i + 1)
    have hcle := List.countP_le_length (p := fun it => malformed it) (l := rest)
    cases item with
    | dict d =>
      by_cases hid : (List.lookup "id" d).isSome
      · have hm : malformed (PyVal.dict d) = false := by
          have hd : malformed (PyVal.dict d) = (List.lookup "id" d).isNone := rfl
          obtain ⟨v, hv⟩ := Option.isSome_iff_exists.mp hid
          rw [hd, hv]
          rfl
        simp [expectedOutputs, hid, List.countP_cons, hm, ih]
        omega
      · have hm : malformed (PyVal.dict d) = true := by
          have hd : malformed (PyVal.dict d) = (List.lookup "id" d).isNone := rfl
          have hnone : List.lookup "id" d = none := by
            cases hl : List.lookup "id" d
            · rfl
            · rw [hl] at hid; simp at hid
          rw [hd, hnone]
          rfl
        simp [expectedOutputs, hid, List.countP_cons, hm, ih]
    | none => simp [expectedOutputs, List.countP_cons, malformed, ih]
    | bool b => simp [expectedOutputs, List.countP_cons, malformed, ih]
    | int n => simp [expectedOutputs, List.countP_cons, malformed, ih]
    | float q => simp [expectedOutputs, List.countP_cons, malformed, ih]
    | str s => simp [expectedOutputs, List.countP_cons, malformed, ih]
    | list l => simp [expectedOutputs, List.countP_cons, malformed, ih]

theorem malformed_dict_of_isSome (d : List (String × PyVal))
    (hid : (List.lookup "id" d).isSome = true) :
    malformed (PyVal.dict d) = false := by
  have hd : malformed (PyVal.dict d) = (List.lookup "id" d).isNone := rfl
  obtain ⟨v, hv⟩ := Option.isSome_iff_exists.mp hid
  rw [hd, hv]
  rfl

theorem processSingleItem_noFault_ok (t : ℚ) (d : List (String × PyVal))
    (hid : (List.lookup "id" d).isSome = true) :
    processSingleItem false t (PyVal.dict d) =
      Except.ok (PyVal.dict (transformItem t d)) := by
  simp only [processSingleItem]
  rw [if_pos hid]
  rfl

theorem processSingleItem_malformed_error (fault : Bool) (t : ℚ) (item : PyVal)
    (hm : malformed item = true) :
    ∃ e, processSingleItem fault t item = Except.error e := by
  cases item
  case dict d =>
    have hd : (List.lookup "id" d).isNone = true := hm
    have hn := Option.isNone_iff_eq_none.mp hd
    refine ⟨ItemFailure.missingId, ?_⟩
    simp only [processSingleItem]
    rw [hn]
    rfl
  all_goals exact ⟨ItemFailure.notADict, rfl⟩

theorem wellformed_is_dict_with_id (item : PyVal)
    (hm : ¬ malformed item = true) :
    ∃ d, item = PyVal.dict d ∧ (List.lookup "id" d).isSome = true := by
  cases item
  case dict d =>
    refine ⟨d, rfl, ?_⟩
    cases hl : List.lookup "id" d
    · exact absurd (by exact_mod_cast congrArg Option.isNone hl) hm
    · rfl
  all_goals exact absurd rfl hm

theorem processLoop_noFault_noBreak (tstamp : Nat → ℚ) :
    ∀ (data : List PyVal) (st : DataProcessor) (i : Nat) (acc : List PyVal),
      st.error_count + data.countP (fun it => malformed it) < st.max_errors →
      processLoop (fun _ => false) tstamp st i acc data =
        ⟨⟨st.error_count + data.countP (fun it => malformed it), st.max_errors⟩,
         acc ++ expectedOutputs tstamp i data, data.length,
         data.countP (fun it => malformed it)⟩
  | [], st, i, acc, h => by
    simp [processLoop, expectedOutputs]
  | item :: rest, st, i, acc, h => by
    by_cases hm : malformed item = true
    · obtain ⟨e, he⟩ := processSingleItem_malformed_error false (tstamp i) item hm
      have hcnt : (item :: rest).countP (fun it => malformed it) =
          rest.countP (fun it => malformed it) + 1 := by
        simp [List.countP_cons, hm]
      rw [hcnt] at h ⊢
      rw [processLoop_step_continue (fun _ => false) tstamp st i acc item rest e he
        (by omega)]
      have ih := processLoop_noFault_noBreak tstamp rest
        ⟨st.error_count + 1, st.max_errors⟩ (i + 1) acc (by simp; omega)
      rw [ih]
      have hE : expectedOutputs tstamp i (item :: rest) =
          expectedOutputs tstamp (i + 1) rest := by
        cases item
        case dict d =>
          have hd : (List.lookup "id" d).isNone = true := hm
          have hn := Option.isNone_iff_eq_none.mp hd
          simp only [expectedOutputs]
          rw [hn]
          rfl
        all_goals rfl
      rw [hE]
      simp
      omega
    · obtain ⟨d, rfl, hid⟩ := wellformed_is_dict_with_id item hm
      have hmf : malformed (PyVal.dict d) = false := malformed_dict_of_isSome d hid
      have hcnt : (PyVal.dict d :: rest).countP (fun it => malformed it) =
          rest.countP (fun it => malformed it) := by
        simp [List.countP_cons, hmf]
      rw [hcnt] at h ⊢
      rw [processLoop_step_ok (fun _ => false) tstamp st i acc (PyVal.dict d) rest
        (PyVal.dict (transformItem (tstamp i) d))
        (processSingleItem_noFault_ok (tstamp i) d hid)]
      have ih := processLoop_noFault_noBreak tstamp rest st (i + 1)
        (acc ++ [PyVal.dict (transformItem (tstamp i) d)]) h
      rw [ih]
      have hE : expectedOutputs tstamp i (PyVal.dict d :: rest) =
          PyVal.dict (transformItem (tstamp i) d) ::
            expectedOutputs tstamp (i + 1) rest := by
        simp only [expectedOutputs]
        rw [if_pos hid]
      rw [hE]
      simp

/-- Six items, the first five malformed, the sixth well-formed: the five
failures exhaust the default error budget of a fresh processor, so the good
item is never attempted. -/
def overBudgetBatch : List PyVal :=
  [PyVal.str "x", PyVal.str "x", PyVal.str "x", PyVal.str "x", PyVal.str "x",
   PyVal.dict [("id", PyVal.int 6)]]

/-- Counterexample to C5 as stated: on a fresh processor
(`max_errors = 5`) and fault injection disabled, a batch of `N = 6` items with
`M = 5` malformed yields 0 items, not `N - M = 1` — the fifth failure reaches
the error budget and the loop breaks before the well-formed sixth item. -/
theorem process_data_filters_malformed_cex :
    overBudgetBatch.length = 6 ∧
    overBudgetBatch.countP (fun it => malformed it) = 5 ∧
    malformed (PyVal.dict [("id", PyVal.int 6)]) = false ∧
    (process_data (fun _ => false) (fun _ => 0) DataProcessor.init
      overBudgetBatch).2 = Except.ok [] ∧
    (process_data (fun _ => false) (fun _ => 0) DataProcessor.init
      overBudgetBatch).1.attempts = 5 ∧
    ([] : List PyVal).length ≠ overBudgetBatch.length -
      overBudgetBatch.countP (fun it => malformed it) := by
  exact ⟨rfl, rfl, rfl, rfl, rfl, by decide⟩

/-- C5 (amended): for every nonempty batch of `N` items of which `M` are
malformed, with fault injection disabled and a freshly constructed processor,
provided `M` is below the error budget maximum (`max_errors = 5` on a fresh
instance, so the loop never breaks), `process_data` returns exactly `N - M`
transformed items preserving the relative input order of the successful items
(the in-order `expectedOutputs` traversal), and the error counter equals `M`
afterwards.  (The nonemptiness proviso is forced by the `ZeroDivisionError`
of C4; the budget proviso by the counterexample above.) -/
theorem process_data_filters_malformed (tstamp : Nat → ℚ) (data : List PyVal)
    (hne : data ≠ [])
    (hM : data.countP (fun it => malformed it) < 5) :
    (process_data (fun _ => false) tstamp DataProcessor.init data).2 =
      Except.ok (expectedOutputs tstamp 0 data) ∧
    (process_data (fun _ => false) tstamp DataProcessor.init data).1.state.error_count =
      data.countP (fun it => malformed it) ∧
    (process_data (fun _ => false) tstamp DataProcessor.init data).1.state.max_errors = 5 ∧
    (expectedOutputs tstamp 0 data).length =
      data.length - data.countP (fun it => malformed it) := by
  have hloop := processLoop_noFault_noBreak tstamp data DataProcessor.init 0 []
    (by simpa [DataProcessor.init] using hM)
  have hlen : data.length ≠ 0 := by
    cases data
    · exact absurd rfl hne
    · simp
  have hfst := process_data_fst (fun _ => false) tstamp DataProcessor.init data
  refine ⟨?_, ?_, ?_, expectedOutputs_length tstamp data 0⟩
  · unfold process_data
    rw [hloop]
    simp [hlen]
  · rw [hfst, hloop]
    simp [DataProcessor.init]
  · rw [hfst, hloop]
    rfl

/-- Witness for C5 (amended): a three-item batch with one malformed item in
the middle yields the two transformed good items in order and an error count
of 1. -/
theorem process_data_filters_malformed_witness :
    (process_data (fun _ => false) (fun _ => 0) DataProcessor.init
      [PyVal.dict [("id", PyVal.int 1)], PyVal.str "bad",
       PyVal.dict [("id", PyVal.int 3)]]).2 =
      Except.ok (expectedOutputs (fun _ => 0) 0
        [PyVal.dict [("id", PyVal.int 1)], PyVal.str "bad",
         PyVal.dict [("id", PyVal.int 3)]]) ∧
    (process_data (fun _ => false) (fun _ => 0) DataProcessor.init
      [PyVal.dict [("id", PyVal.int 1)], PyVal.str "bad",
       PyVal.dict [("id", PyVal.int 3)]]).1.state.error_count = 1 := by
  have h := process_data_filters_malformed (fun _ => 0)
    [PyVal.dict [("id", PyVal.int 1)], PyVal.str "bad",
     PyVal.dict [("id", PyVal.int 3)]]
    (by simp) (by decide)
  exact ⟨h.1, h.2.1⟩

theorem processLoop_allMalformed (faults : Nat → Bool) (tstamp : Nat → ℚ) :
    ∀ (data : List PyVal) (st : DataProcessor) (i : Nat) (acc : List PyVal),
      (∀ it ∈ data, malformed it = true) →
      st.error_count < st.max_errors →
      st.max_errors - st.error_count ≤ data.length →
      processLoop faults tstamp st i acc data =
        ⟨⟨st.max_errors, st.max_errors⟩, acc,
         st.max_errors - st.error_count, st.max_errors - st.error_count⟩
  | [], st, i, acc, _, hlt, hle => by
    simp at hle
    omega
  | item :: rest, st, i, acc, hall, hlt, hle => by
    obtain ⟨e, he⟩ := processSingleItem_malformed_error (faults i) (tstamp i) item
      (hall item (List.mem_cons_self item rest))
    by_cases hb : st.error_count + 1 ≥ st.max_errors
    · have hec : st.error_count + 1 = st.max_errors := by omega
      rw [processLoop_step_break faults tstamp st i acc item rest e he hb]
      have h1 : st.max_errors - st.error_count = 1 := by omega
      rw [hec, h1]
    · rw [processLoop_step_continue faults tstamp st i acc item rest e he (by omega)]
      have ih := processLoop_allMalformed faults tstamp rest
        ⟨st.error_count + 1, st.max_errors⟩ (i + 1) acc
        (fun it hit => hall it (List.mem_cons_of_mem item hit))
        (by simp; omega)
        (by simp at hle ⊢; omega)
      rw [ih]
      simp
      omega

/-- C6: for a batch in which every item is malformed and an error budget
maximum `E < N` on a freshly constructed processor (`error_count = 0`,
`max_errors` set to `E`), `process_data` attempts exactly `E` items — the loop
breaks immediately after the `E`-th failure, so the remaining `N - E` items
are never attempted — and returns an empty result list with the counter at
`E`. -/
theorem process_data_budget_halt (faults : Nat → Bool) (tstamp : Nat → ℚ)
    (data : List PyVal) (E : Nat)
    (hall : ∀ it ∈ data, malformed it = true)
    (hE : 1 ≤ E) (hEN : E < data.length) :
    process_data faults tstamp ⟨0, E⟩ data =
      (⟨⟨E, E⟩, [], E, E⟩, Except.ok []) := by
  have hloop := processLoop_allMalformed faults tstamp data ⟨0, E⟩ 0 [] hall
    (by simpa using hE) (by simp; omega)
  unfold process_data
  rw [hloop]
  have hlen : data.length ≠ 0 := by omega
  simp [hlen]

/-- Witness for C6: three malformed items against a fresh processor with its
budget attribute set to 2 — two attempts, then halt with an empty result. -/
theorem process_data_budget_halt_witness :
    process_data (fun _ => false) (fun _ => 0)
      ⟨0, 2⟩ [PyVal.str "a", PyVal.int 9, PyVal.none] =
      (⟨⟨2, 2⟩, [], 2, 2⟩, Except.ok []) := by
  exact process_data_budget_halt (fun _ => false) (fun _ => 0)
    [PyVal.str "a", PyVal.int 9, PyVal.none] 2
    (by decide) (by decide) (by decide)

theorem transformItem_lookup_processed_at (t : ℚ) (d : List (String × PyVal)) :
    List.lookup "processed_at" (transformItem t d) = some (PyVal.float t) := by
  unfold transformItem
  rw [dictSet_lookup_ne _ _ _ _ (by decide), dictSet_lookup_self]

theorem transformItem_lookup_status (t : ℚ) (d : List (String × PyVal)) :
    List.lookup "status" (transformItem t d) = some (PyVal.str "processed") :=
  dictSet_lookup_self _ _ _

theorem transformItem_lookup_other (t : ℚ) (d : List (String × PyVal))
    (k : String) (h1 : k ≠ "processed_at") (h2 : k ≠ "status") :
    List.lookup k (transformItem t d) = List.lookup k d := by
  unfold transformItem
  rw [dictSet_lookup_ne _ _ _ _ h2, dictSet_lookup_ne _ _ _ _ h1]

theorem processSingleItem_ok_inv (fault : Bool) (t : ℚ) (item out : PyVal)
    (h : processSingleItem fault t item = Except.ok out) :
    ∃ d, item = PyVal.dict d ∧ out = PyVal.dict (transformItem t d) := by
  cases item
  case dict d =>
    refine ⟨d, rfl, ?_⟩
    simp only [processSingleItem] at h
    by_cases hid : (List.lookup "id" d).isSome = true
    · rw [if_pos hid] at h
      cases fault
      · simp at h
        exact h.symm
      · simp at h
    · rw [if_neg hid] at h
      simp at h
  all_goals simp [processSingleItem] at h

theorem processLoop_items_from_inputs (faults : Nat → Bool) (tstamp : Nat → ℚ) :
    ∀ (data : List PyVal) (st : DataProcessor) (i : Nat) (acc : List PyVal)
      (out : PyVal),
      out ∈ (processLoop faults tstamp st i acc data).items →
      out ∈ acc ∨ ∃ j d, data.get? j = some (PyVal.dict d) ∧
        out = PyVal.dict (transformItem (tstamp (i + j)) d)
  | [], st, i, acc, out, h => by
    simp [processLoop] at h
    exact Or.inl h
  | item :: rest, st, i, acc, out, h => by
    cases hpi : processSingleItem (faults i) (tstamp i) item with
    | ok o =>
      rw [processLoop_step_ok faults tstamp st i acc item rest o hpi] at h
      have ih := processLoop_items_from_inputs faults tstamp rest st (i + 1)
        (acc ++ [o]) out h
      rcases ih with hacc | ⟨j, d, hj, hout⟩
      · rcases List.mem_append.mp hacc with h1 | h2
        · exact Or.inl h1
        · obtain ⟨d, hitem, ho⟩ := processSingleItem_ok_inv (faults i) (tstamp i)
            item o hpi
          right
          refine ⟨0, d, by simp [hitem], ?_⟩
          have hoo : out = o := by simpa using h2
          rw [hoo, ho, Nat.add_zero]
      · right
        refine ⟨j + 1, d, by simpa using hj, ?_⟩
        have hidx : i + (j + 1) = i + 1 + j := by omega
        rw [hidx]
        exact hout
    | error e =>
      by_cases hb : st.error_count + 1 ≥ st.max_errors
      · rw [processLoop_step_break faults tstamp st i acc item rest e hpi hb] at h
        exact Or.inl h
      · rw [processLoop_step_continue faults tstamp st i acc item rest e hpi
          (by omega)] at h
        have ih := processLoop_items_from_inputs faults tstamp rest
          ⟨st.error_count + 1, st.max_errors⟩ (i + 1) acc out h
        rcases ih with hacc | ⟨j, d, hj, hout⟩
        · exact Or.inl hacc
        · right
          refine ⟨j + 1, d, by simpa using hj, ?_⟩
          have hidx : i + (j + 1) = i + 1 + j := by omega
          rw [hidx]
          exact hout

/-- C10: `process_data` never mutates its inputs — every returned item is
built from `item.copy()` of the dict found at some input position `j` (which
the input list still holds unchanged), extended with the `processed_at`
timestamp and the `status` marker via key assignment on the copy: the two
marker keys hold the new values and lookups at every other key are exactly
those of the input dict. -/
theorem process_data_outputs_fresh_extensions (faults : Nat → Bool)
    (tstamp : Nat → ℚ) (st : DataProcessor) (data : List PyVal) (out : PyVal)
    (hmem : out ∈ (process_data faults tstamp st data).1.items) :
    ∃ j d, data.get? j = some (PyVal.dict d) ∧
      out = PyVal.dict (transformItem (tstamp j) d) ∧
      List.lookup "processed_at" (transformItem (tstamp j) d) =
        some (PyVal.float (tstamp j)) ∧
      List.lookup "status" (transformItem (tstamp j) d) =
        some (PyVal.str "processed") ∧
      (∀ k, k ≠ "processed_at" → k ≠ "status" →
        List.lookup k (transformItem (tstamp j) d) = List.lookup k d) := by
  rw [process_data_fst faults tstamp st data] at hmem
  have h := processLoop_items_from_inputs faults tstamp data st 0 [] out hmem
  rcases h with hacc | ⟨j, d, hj, hout⟩
  · simp at hacc
  · refine ⟨j, d, hj, by simpa using hout,
      transformItem_lookup_processed_at (tstamp j) d,
      transformItem_lookup_status (tstamp j) d,
      fun k h1 h2 => transformItem_lookup_other (tstamp j) d k h1 h2⟩

/-- Witness for C10: the single processed output of a one-item batch is the
input record extended with the two marker keys, its other keys unchanged. -/
theorem process_data_outputs_fresh_extensions_witness :
    ∃ j d, [PyVal.dict [("id", PyVal.int 1), ("name", PyVal.str "Alice")]].get? j =
        some (PyVal.dict d) ∧
      PyVal.dict (transformItem 7 [("id", PyVal.int 1), ("name", PyVal.str "Alice")]) =
        PyVal.dict (transformItem ((fun _ => (7 : ℚ)) j) d) ∧
      List.lookup "processed_at" (transformItem ((fun _ => (7 : ℚ)) j) d) =
        some (PyVal.float ((fun _ => (7 : ℚ)) j)) ∧
      List.lookup "status" (transformItem ((fun _ => (7 : ℚ)) j) d) =
        some (PyVal.str "processed") ∧
      (∀ k, k ≠ "processed_at" → k ≠ "status" →
        List.lookup k (transformItem ((fun _ => (7 : ℚ)) j) d) = List.lookup k d) := by
  apply process_data_outputs_fresh_extensions (fun _ => false) (fun _ => (7 : ℚ))
    DataProcessor.init [PyVal.dict [("id", PyVal.int 1), ("name", PyVal.str "Alice")]]
  have hitems : (process_data (fun _ => false) (fun _ => (7 : ℚ)) DataProcessor.init
      [PyVal.dict [("id", PyVal.int 1), ("name", PyVal.str "Alice")]]).1.items =
      [PyVal.dict (transformItem 7 [("id", PyVal.int 1), ("name", PyVal.str "Alice")])] :=
    rfl
  rw [hitems]
  exact List.mem_singleton.mpr rfl
